import Mathlib

/-!
Formal model of the farm_survey ETL core.

This file embeds the core logic of the repository's two pipeline classes:

* WeatherDataProcessor (assets/scripts/weather_data_processor.py):
  extract_measurement, process_messages, calculate_means.
* FieldDataProcessor (part_3/field_data_processor.py):
  rename_columns, apply_corrections, weather_station_mapping.

Modelling conventions:

* Python floats are modelled as rationals (Rat).
* A regex pattern together with re.search is modelled by its matching
  semantics: a function from the message to an optional list of capture
  groups (an entry is none for a group that did not take part in the match).
* The builtin float() parser is a parameter pyFloat : String -> Option Rat;
  a none result stands for a ValueError raise.
* Raised Python exceptions are modelled with Except PyErr.
* A pandas DataFrame is modelled as a list of rows on the weather side and
  as a list of labelled columns on the field side, where only the labels
  and the column payloads matter.
-/

/-- Python exceptions raised by the modelled code paths. -/
inductive PyErr
  | stopIteration
  | floatValueError
  | unpackValueError
  | keyError
deriving DecidableEq

/-- Matching semantics of one regex pattern under re.search: for a given
message, either no match, or the list of captured groups of the first
match. -/
abbrev RePattern := String → Option (List (Option String))

/-- Model of next((x for x in match.groups() if x is not None)): the first
group that is not None; a none result models the exhausted generator, on
which next raises StopIteration at the caller. -/
def next_not_none : List (Option String) → Option String
  | [] => none
  | some x :: _ => some x
  | none :: rest => next_not_none rest

/-- WeatherDataProcessor.extract_measurement: iterate self.patterns.items()
in insertion order; on the first pattern whose search matches, return the
key together with float() of the first non-None capture group; raise when
no group is non-None (StopIteration) or when the group text does not parse
(ValueError); after exhausting the table return (None, None), modelled as
Except.ok none. -/
def extract_measurement (pyFloat : String → Option Rat)
    (patterns : List (String × RePattern)) (message : String) :
    Except PyErr (Option (String × Rat)) :=
  match patterns with
  | [] => Except.ok none
  | (key, pattern) :: rest =>
    match pattern message with
    | none => extract_measurement pyFloat rest message
    | some groups =>
      match next_not_none groups with
      | none => Except.error PyErr.stopIteration
      | some g =>
        match pyFloat g with
        | none => Except.error PyErr.floatValueError
        | some v => Except.ok (some (key, v))

/-- One row of the weather DataFrame as loaded: the Weather_station_ID and
Message columns. -/
structure MessageRow where
  station : String
  message : String
deriving DecidableEq

/-- One row of the weather DataFrame after process_messages: the derived
Measurement and Value columns are populated (none models a null field). -/
structure ProcessedRow where
  station : String
  message : String
  measurement : Option String
  value : Option Rat
deriving DecidableEq

/-- Row-by-row effect of self.weather_df["Message"].apply(self.extract_measurement):
rows are visited in order, the first raised exception propagates, and
otherwise each row gains the Measurement and Value fields of its
extraction result. -/
def process_rows (pyFloat : String → Option Rat)
    (patterns : List (String × RePattern)) :
    List MessageRow → Except PyErr (List ProcessedRow)
  | [] => Except.ok []
  | r :: rest =>
    match extract_measurement pyFloat patterns r.message with
    | Except.error e => Except.error e
    | Except.ok res =>
      match process_rows pyFloat patterns rest with
      | Except.error e => Except.error e
      | Except.ok out =>
        Except.ok ({ station := r.station, message := r.message,
                     measurement := res.map Prod.fst,
                     value := res.map Prod.snd } :: out)

/-- WeatherDataProcessor.process_messages on a loaded DataFrame: apply the
extractor to every Message and unpack the results into the Measurement and
Value columns; on an empty DataFrame the tuple unpacking of zip(*result)
raises ValueError. -/
def process_messages (pyFloat : String → Option Rat)
    (patterns : List (String × RePattern)) (rows : List MessageRow) :
    Except PyErr (List ProcessedRow) :=
  match rows with
  | [] => Except.error PyErr.unpackValueError
  | _ :: _ => process_rows pyFloat patterns rows

/-- The Value entries of the rows in the (station, kind) group of
groupby(by=["Weather_station_ID", "Measurement"]): rows whose Measurement
is null belong to no group, and null Values are skipped by mean(). -/
def group_values (rows : List ProcessedRow) (s k : String) : List Rat :=
  rows.filterMap (fun r =>
    if r.station = s ∧ r.measurement = some k then r.value else none)

/-- The grouped mean of Value per (station, kind) key: a key with no
contributing values is absent from the groupby result, modelled as none. -/
def group_mean (rows : List ProcessedRow) : String → String → Option Rat :=
  fun s k =>
    let vs := group_values rows s k
    if vs = [] then none else some (vs.sum / (vs.length : Rat))

/-- The weather_df attribute over the object's lifecycle: None before
loading, a raw DataFrame without Measurement and Value columns after
weather_station_mapping, and a processed DataFrame after
process_messages. -/
inductive WeatherDF
  | raw : List MessageRow → WeatherDF
  | processed : List ProcessedRow → WeatherDF

/-- The state of a WeatherDataProcessor instance relevant to
calculate_means. -/
structure WeatherState where
  weather_df : Option WeatherDF

/-- WeatherDataProcessor.calculate_means: returns None when weather_df is
not initialized; grouping an unprocessed DataFrame on the absent
Measurement column raises KeyError; otherwise the per (station, kind)
means of Value are returned. -/
def calculate_means (st : WeatherState) :
    Except PyErr (Option (String → String → Option Rat)) :=
  match st.weather_df with
  | none => Except.ok none
  | some (WeatherDF.raw _) => Except.error PyErr.keyError
  | some (WeatherDF.processed rows) => Except.ok (some (group_mean rows))

/-- The observation values sharing a fixed (station, kind) pair, phrased
independently of the aggregator: filter the rows of the pair, read their
Value fields, and drop the nulls. -/
def obs_values (rows : List ProcessedRow) (s k : String) : List Rat :=
  ((rows.filter (fun r => decide (r.station = s ∧ r.measurement = some k))).map
    (fun r => r.value)).reduceOption

/-- The largest length of a label in a column list. -/
def colMaxLen (cols : List String) : Nat :=
  cols.foldr (fun c n => max c.length n) 0

/-- The placeholder-search loop of FieldDataProcessor.rename_columns:
starting from the default placeholder, append an underscore while the
candidate is an existing column label. -/
def freshTempGo (cols : List String) (temp : String) : String :=
  if h : temp ∈ cols then freshTempGo cols (temp ++ "_") else temp
termination_by colMaxLen cols + 1 - temp.length
decreasing_by
  have hb : ∀ s ∈ cols, s.length ≤ colMaxLen cols := by
    clear h
    intro s
    induction cols with
    | nil => intro hs; exact absurd hs (List.not_mem_nil s)
    | cons c rest ih =>
      intro hs
      have hmax : colMaxLen (c :: rest) = max c.length (colMaxLen rest) := rfl
      rcases List.mem_cons.mp hs with h1 | h1
      · rw [hmax, h1]; exact le_max_left _ _
      · exact le_trans (ih h1) (hmax ▸ le_max_right _ _)
  have h1 : temp.length ≤ colMaxLen cols := hb temp h
  have h2 : "_".length = 1 := rfl
  simp_wf
  omega

/-- Python dict lookup with a default, d.get(key, dflt), for a dict built
from an ordered list of key-value pairs in which a later duplicate key
overwrites an earlier one. -/
def dict_get : List (String × String) → String → String → String
  | [], _, dflt => dflt
  | (k, v) :: rest, key, dflt => dict_get rest key (if key = k then v else dflt)

/-- pandas DataFrame.rename(columns=mapping): every column label is sent
through the mapping, labels absent from the mapping are kept, and values
stay attached to their column. -/
def df_rename {α : Type} (mapping : List (String × String)) (df : List (String × α)) :
    List (String × α) :=
  df.map (fun c => (dict_get mapping c.1 c.1, c.2))

/-- FieldDataProcessor.rename_columns with the configured swapped pair
(column1, column2): pick a placeholder label that is not an existing
column, rename column1 to the placeholder and column2 to column1 in one
simultaneous rename, then rename the placeholder to column2. -/
def rename_columns {α : Type} (column1 column2 : String) (df : List (String × α)) :
    List (String × α) :=
  let temp_name := freshTempGo (df.map Prod.fst) "__temp_name_for_swap__"
  df_rename [(temp_name, column2)] (df_rename [(column1, temp_name), (column2, column1)] df)

/-- One row of the field DataFrame; only the columns the modelled
operations touch are spelled out: field_id stands for Field_ID, elevation
for Elevation and crop_type for Crop_type. -/
structure FieldRow where
  field_id : Int
  elevation : Rat
  crop_type : String
deriving DecidableEq

/-- FieldDataProcessor.apply_corrections with the configured
values_to_rename table: the Elevation column is replaced by its absolute
value and every Crop_type value is sent through
self.values_to_rename.get(crop, crop). -/
def apply_corrections (values_to_rename : List (String × String))
    (rows : List FieldRow) : List FieldRow :=
  rows.map (fun r =>
    { r with elevation := |r.elevation|,
             crop_type := dict_get values_to_rename r.crop_type r.crop_type })

/-- One row of the externally fetched station mapping table: a Field_ID
key and the station columns it carries. -/
structure StationRow where
  field_id : Int
  station : String
deriving DecidableEq

/-- The merge step of FieldDataProcessor.weather_station_mapping:
self.df.merge(weather_map_df, on="Field_ID", how="left"). Each field row
is paired with every mapping row sharing its Field_ID, in order, or with
a null station part when no mapping row matches. -/
def weather_station_mapping (df : List FieldRow) (weather_map_df : List StationRow) :
    List (FieldRow × Option String) :=
  df.flatMap (fun f =>
    match weather_map_df.filter (fun m => m.field_id == f.field_id) with
    | [] => [(f, none)]
    | m :: ms => (m :: ms).map (fun m2 => (f, some m2.station)))

/-- A concrete float() fragment used to instantiate theorems. -/
def exFloat : String → Option Rat := fun g =>
  if g = "23.4" then some (117 / 5) else if g = "24.6" then some (123 / 5) else none

/-- A concrete pattern capturing the float before C in one message. -/
def exPatternTemp : RePattern := fun message =>
  if message = "temp: 23.4C" then some [some "23.4"] else none

/-- A concrete pattern matching no message. -/
def exPatternNone : RePattern := fun _ => none

/-- A concrete pattern matching every message with capture 24.6. -/
def exPatternAll : RePattern := fun _ => some [some "24.6"]

/-- A concrete pattern that matches one message with no capture group at
all, so match.groups() is empty. -/
def no_group_pattern : RePattern := fun message =>
  if message = "Sunny today" then some [] else none

/-- Every label of a column list is at most colMaxLen long. -/
theorem length_le_colMaxLen (cols : List String) :
    ∀ s ∈ cols, s.length ≤ colMaxLen cols := by
  induction cols with
  | nil => intro s hs; exact absurd hs (List.not_mem_nil s)
  | cons c rest ih =>
    intro s hs
    have hmax : colMaxLen (c :: rest) = max c.length (colMaxLen rest) := rfl
    rcases List.mem_cons.mp hs with h1 | h1
    · rw [hmax, h1]; exact le_max_left _ _
    · exact le_trans (ih s h1) (hmax ▸ le_max_right _ _)

/-- The placeholder loop returns a label that is not an existing column. -/
theorem freshTempGo_not_mem (cols : List String) (temp : String) :
    freshTempGo cols temp ∉ cols := by
  generalize hn : colMaxLen cols + 1 - temp.length = n
  induction n generalizing temp with
  | zero =>
    have hnot : temp ∉ cols := by
      intro hmem
      have hb : temp.length ≤ colMaxLen cols := length_le_colMaxLen cols temp hmem
      omega
    unfold freshTempGo
    rw [dif_neg hnot]
    exact hnot
  | succ n ih =>
    by_cases hmem : temp ∈ cols
    · unfold freshTempGo
      rw [dif_pos hmem]
      apply ih
      have hb : temp.length ≤ colMaxLen cols := length_le_colMaxLen cols temp hmem
      have h2 : (temp ++ "_").length = temp.length + 1 := by
        rw [String.length_append]; rfl
      omega
    · unfold freshTempGo
      rw [dif_neg hmem]
      exact hmem

/-- The placeholder loop only ever appends underscores to its start value. -/
theorem freshTempGo_extends (cols : List String) (temp : String) :
    ∃ n : Nat, freshTempGo cols temp = temp ++ String.mk (List.replicate n '_') := by
  generalize hn : colMaxLen cols + 1 - temp.length = m
  induction m generalizing temp with
  | zero =>
    have hnot : temp ∉ cols := by
      intro hmem
      have hb : temp.length ≤ colMaxLen cols := length_le_colMaxLen cols temp hmem
      omega
    refine ⟨0, ?_⟩
    unfold freshTempGo
    rw [dif_neg hnot]
    apply String.ext
    simp [String.data_append]
  | succ m ih =>
    by_cases hmem : temp ∈ cols
    · have hb : temp.length ≤ colMaxLen cols := length_le_colMaxLen cols temp hmem
      have h2 : (temp ++ "_").length = temp.length + 1 := by
        rw [String.length_append]; rfl
      obtain ⟨n, hrec⟩ := ih (temp ++ "_") (by omega)
      refine ⟨n + 1, ?_⟩
      unfold freshTempGo
      rw [dif_pos hmem, hrec]
      apply String.ext
      simp [String.data_append, List.replicate_succ]
    · refine ⟨0, ?_⟩
      unfold freshTempGo
      rw [dif_neg hmem]
      apply String.ext
      simp [String.data_append]

/-- A prefix of patterns that all fail to match is skipped by the
extractor. -/
theorem extract_measurement_append_none (pyFloat : String → Option Rat)
    (patterns1 patterns2 : List (String × RePattern)) (message : String)
    (h : ∀ kp ∈ patterns1, kp.2 message = none) :
    extract_measurement pyFloat (patterns1 ++ patterns2) message =
      extract_measurement pyFloat patterns2 message := by
  induction patterns1 with
  | nil => rfl
  | cons kp rest ih =>
    obtain ⟨k0, p0⟩ := kp
    have h0 : p0 message = none := h (k0, p0) (List.mem_cons_self _ _)
    have hrest : ∀ x ∈ rest, x.2 message = none := fun x hx => h x (List.mem_cons_of_mem _ hx)
    rw [List.cons_append]
    simp only [extract_measurement, h0]
    exact ih hrest

/-- A row whose extraction raises makes the whole batch raise. -/
theorem process_rows_error_of_mem (pyFloat : String → Option Rat)
    (patterns : List (String × RePattern)) (rows : List MessageRow) (r : MessageRow)
    (hr : r ∈ rows) (e : PyErr)
    (he : extract_measurement pyFloat patterns r.message = Except.error e) :
    ∃ e2, process_rows pyFloat patterns rows = Except.error e2 := by
  induction rows with
  | nil => exact absurd hr (List.not_mem_nil r)
  | cons r0 rest ih =>
    rcases List.mem_cons.mp hr with h1 | h1
    · subst h1
      exact ⟨e, by simp only [process_rows, he]⟩
    · cases hex : extract_measurement pyFloat patterns r0.message with
      | error e0 => exact ⟨e0, by simp only [process_rows, hex]⟩
      | ok res =>
        obtain ⟨e2, he2⟩ := ih h1
        exact ⟨e2, by simp only [process_rows, hex, he2]⟩

/-- dict.get falls back to the default when no entry carries the key. -/
theorem dict_get_not_mem_key (d : List (String × String)) (key : String) :
    (∀ p ∈ d, p.1 ≠ key) → ∀ dflt, dict_get d key dflt = dflt := by
  induction d with
  | nil => intro _ dflt; rfl
  | cons p rest ih =>
    intro h dflt
    obtain ⟨k, v⟩ := p
    have hk : k ≠ key := h (k, v) (List.mem_cons_self _ _)
    simp only [dict_get]
    rw [if_neg (fun he => hk he.symm)]
    exact ih (fun q hq => h q (List.mem_cons_of_mem _ hq)) dflt

/-- dict.get returns the stored value of a key of a duplicate-free dict. -/
theorem dict_get_mem_key (d : List (String × String)) (key canon : String) :
    (d.map Prod.fst).Nodup → (key, canon) ∈ d → ∀ dflt, dict_get d key dflt = canon := by
  induction d with
  | nil => intro _ hmem _; exact absurd hmem (List.not_mem_nil _)
  | cons p rest ih =>
    intro hnd hmem dflt
    obtain ⟨k, v⟩ := p
    simp only [List.map_cons, List.nodup_cons] at hnd
    obtain ⟨hknotin, hndrest⟩ := hnd
    simp only [dict_get]
    rcases List.mem_cons.mp hmem with h1 | h1
    · injection h1 with hk hv
      subst hk
      subst hv
      rw [if_pos rfl]
      apply dict_get_not_mem_key
      intro q hq he
      exact hknotin (he ▸ List.mem_map_of_mem Prod.fst hq)
    · have hkne : key ≠ k := by
        intro he
        have hin : key ∈ rest.map Prod.fst := List.mem_map_of_mem Prod.fst h1
        rw [he] at hin
        exact hknotin hin
      rw [if_neg hkne]
      exact ih hndrest h1 dflt

/-- The aggregator's per-group value list agrees with the spec-side list of
observations of the pair. -/
theorem group_values_eq_obs_values (rows : List ProcessedRow) (s k : String) :
    group_values rows s k = obs_values rows s k := by
  induction rows with
  | nil => rfl
  | cons r rest ih =>
    simp only [group_values, obs_values] at ih ⊢
    by_cases hp : r.station = s ∧ r.measurement = some k
    · have hpt : (fun r : ProcessedRow =>
          decide (r.station = s ∧ r.measurement = some k)) r = true := by
        simpa using hp
      cases hv : r.value with
      | none =>
        have hf : (fun r : ProcessedRow =>
            if r.station = s ∧ r.measurement = some k then r.value else none) r = none := by
          simp only []
          rw [if_pos hp, hv]
        rw [@List.filterMap_cons_none _ _ _ r rest hf, @List.filter_cons_of_pos _ _ r rest hpt]
        simp only [List.map_cons, hv, List.reduceOption_cons_of_none]
        exact ih
      | some v =>
        have hf : (fun r : ProcessedRow =>
            if r.station = s ∧ r.measurement = some k then r.value else none) r = some v := by
          simp only []
          rw [if_pos hp, hv]
        rw [@List.filterMap_cons_some _ _ _ r rest v hf, @List.filter_cons_of_pos _ _ r rest hpt]
        simp only [List.map_cons, hv, List.reduceOption_cons_of_some]
        rw [ih]
    · have hpf : ¬(fun r : ProcessedRow =>
          decide (r.station = s ∧ r.measurement = some k)) r = true := by
        simpa using hp
      have hf : (fun r : ProcessedRow =>
          if r.station = s ∧ r.measurement = some k then r.value else none) r = none := by
        simp only []
        rw [if_neg hp]
      rw [@List.filterMap_cons_none _ _ _ r rest hf, @List.filter_cons_of_neg _ _ r rest hpf]
      exact ih

/-- When the batch processor succeeds it returns one output row per input
row, in order, carrying the station and message of its input row and the
extraction result in the two new fields. -/
theorem process_rows_ok_spec (pyFloat : String → Option Rat)
    (patterns : List (String × RePattern)) :
    ∀ (rows : List MessageRow) (out : List ProcessedRow),
      process_rows pyFloat patterns rows = Except.ok out →
      out.length = rows.length ∧
      ∀ i (hi : i < rows.length) (ho : i < out.length),
        out[i].station = rows[i].station ∧
        out[i].message = rows[i].message ∧
        (extract_measurement pyFloat patterns rows[i].message = Except.ok none →
          out[i].measurement = none ∧ out[i].value = none) := by
  intro rows
  induction rows with
  | nil =>
    intro out h
    simp only [process_rows] at h
    injection h with h1
    subst h1
    exact ⟨rfl, fun i hi ho => absurd hi (by simp)⟩
  | cons r0 rest ih =>
    intro out h
    simp only [process_rows] at h
    cases hex : extract_measurement pyFloat patterns r0.message with
    | error e =>
      rw [hex] at h
      simp at h
    | ok res =>
      rw [hex] at h
      cases hrec : process_rows pyFloat patterns rest with
      | error e =>
        rw [hrec] at h
        simp at h
      | ok tail =>
        rw [hrec] at h
        simp only [Except.ok.injEq] at h
        subst h
        obtain ⟨ihlen, ihspec⟩ := ih tail hrec
        refine ⟨by simp [ihlen], ?_⟩
        intro i hi ho
        cases i with
        | zero =>
          refine ⟨rfl, rfl, ?_⟩
          intro hnone
          have hres : res = none := by
            have h0 : (r0 :: rest)[0] = r0 := rfl
            rw [h0] at hnone
            rw [hex] at hnone
            injection hnone
          subst hres
          exact ⟨rfl, rfl⟩
        | succ n =>
          have hn1 : n < rest.length := by simpa using hi
          have hn2 : n < tail.length := by simpa using ho
          have := ihspec n hn1 hn2
          simpa [List.getElem_cons_succ] using this

/-- C1: the extractor tries the patterns of the table in its defined order
and, on the first pattern that matches, immediately returns the pair of
that pattern's kind and the float parsed from the first non-None capture
group, whatever the later patterns (post) would do with the message. -/
theorem extract_measurement_first_match_wins (pyFloat : String → Option Rat)
    (pre post : List (String × RePattern)) (key : String) (pattern : RePattern)
    (message g : String) (groups : List (Option String)) (v : Rat)
    (hpre : ∀ kp ∈ pre, kp.2 message = none)
    (hmatch : pattern message = some groups)
    (hgroup : next_not_none groups = some g)
    (hfloat : pyFloat g = some v) :
    extract_measurement pyFloat (pre ++ (key, pattern) :: post) message =
      Except.ok (some (key, v)) := by
  rw [extract_measurement_append_none pyFloat pre ((key, pattern) :: post) message hpre]
  simp only [extract_measurement, hmatch, hgroup, hfloat]

/-- Witness for C1: a table whose first entry fails, whose second entry
matches, and whose third entry would also match the message. -/
theorem extract_measurement_first_match_wins_witness :
    extract_measurement exFloat
        ([("humidity", exPatternNone)] ++ ("temperature", exPatternTemp) :: [("all", exPatternAll)])
        "temp: 23.4C" = Except.ok (some ("temperature", 117 / 5)) :=
  extract_measurement_first_match_wins exFloat [("humidity", exPatternNone)]
    [("all", exPatternAll)] "temperature" exPatternTemp "temp: 23.4C" "23.4"
    [some "23.4"] (117 / 5)
    (by
      intro kp hkp
      simp only [List.mem_singleton] at hkp
      rw [hkp]
      rfl)
    (by rfl) (by rfl) (by rfl)

/-- C2: on a message no pattern matches the extractor returns (None, None)
as a normal outcome, and a successful batch run keeps every record, in
order, filling null Measurement and Value fields for such messages instead
of dropping the record. -/
theorem process_messages_preserves_records (pyFloat : String → Option Rat)
    (patterns : List (String × RePattern)) (rows : List MessageRow)
    (out : List ProcessedRow)
    (h : process_messages pyFloat patterns rows = Except.ok out) :
    (∀ message, (∀ kp ∈ patterns, kp.2 message = none) →
        extract_measurement pyFloat patterns message = Except.ok none) ∧
    out.length = rows.length ∧
    ∀ i (hi : i < rows.length) (ho : i < out.length),
      out[i].station = rows[i].station ∧
      out[i].message = rows[i].message ∧
      (extract_measurement pyFloat patterns rows[i].message = Except.ok none →
        out[i].measurement = none ∧ out[i].value = none) := by
  refine ⟨?_, ?_⟩
  · intro message hm
    have hskip := extract_measurement_append_none pyFloat patterns [] message hm
    simpa [extract_measurement] using hskip
  · cases rows with
    | nil => simp [process_messages] at h
    | cons r0 rest => exact process_rows_ok_spec pyFloat patterns (r0 :: rest) out h

/-- Witness for C2: a two-row batch whose second message matches nothing;
the output keeps both rows and the second carries null fields. -/
theorem process_messages_preserves_records_witness :
    ([⟨"A", "temp: 23.4C", some "temperature", some (117 / 5)⟩,
      ⟨"B", "rainfall heavy", none, none⟩] : List ProcessedRow).length =
      ([⟨"A", "temp: 23.4C"⟩, ⟨"B", "rainfall heavy"⟩] : List MessageRow).length ∧
    ([⟨"A", "temp: 23.4C", some "temperature", some (117 / 5)⟩,
      ⟨"B", "rainfall heavy", none, none⟩] : List ProcessedRow)[1].measurement = none := by
  have h := process_messages_preserves_records exFloat [("temperature", exPatternTemp)]
    [⟨"A", "temp: 23.4C"⟩, ⟨"B", "rainfall heavy"⟩]
    [⟨"A", "temp: 23.4C", some "temperature", some (117 / 5)⟩,
     ⟨"B", "rainfall heavy", none, none⟩] (by rfl)
  exact ⟨h.2.1, ((h.2.2 1 (by decide) (by decide)).2.2 (by rfl)).1⟩

/-- C6: when the first matching pattern yields a capture that float()
cannot parse, the extractor raises ValueError; the error is not skipped to
a later pattern, not turned into (None, None), and it propagates through
the batch processor to the caller. -/
theorem extract_measurement_parse_failure_fatal (pyFloat : String → Option Rat)
    (pre post : List (String × RePattern)) (key : String) (pattern : RePattern)
    (message g : String) (groups : List (Option String))
    (hpre : ∀ kp ∈ pre, kp.2 message = none)
    (hmatch : pattern message = some groups)
    (hgroup : next_not_none groups = some g)
    (hfloat : pyFloat g = none) :
    extract_measurement pyFloat (pre ++ (key, pattern) :: post) message =
      Except.error PyErr.floatValueError ∧
    ∀ rows : List MessageRow, (∃ r ∈ rows, r.message = message) →
      ∃ e, process_messages pyFloat (pre ++ (key, pattern) :: post) rows = Except.error e := by
  have hext : extract_measurement pyFloat (pre ++ (key, pattern) :: post) message =
      Except.error PyErr.floatValueError := by
    rw [extract_measurement_append_none pyFloat pre ((key, pattern) :: post) message hpre]
    simp only [extract_measurement, hmatch, hgroup, hfloat]
  refine ⟨hext, ?_⟩
  intro rows hr
  obtain ⟨r, hrmem, hrmsg⟩ := hr
  cases rows with
  | nil => exact absurd hrmem (List.not_mem_nil r)
  | cons r0 rest =>
    obtain ⟨e2, he2⟩ := process_rows_error_of_mem pyFloat (pre ++ (key, pattern) :: post)
      (r0 :: rest) r hrmem PyErr.floatValueError (by rw [hrmsg]; exact hext)
    exact ⟨e2, he2⟩

/-- Witness for C6: a pattern capturing text that the parser rejects makes
both the extractor and a batch containing the message raise. -/
theorem extract_measurement_parse_failure_fatal_witness :
    extract_measurement exFloat
        ([] ++ ("temperature", fun message =>
          if message = "temp: fiveC" then some [some "five"] else none) :: [])
        "temp: fiveC" = Except.error PyErr.floatValueError := by
  exact (extract_measurement_parse_failure_fatal exFloat [] [] "temperature"
    (fun message => if message = "temp: fiveC" then some [some "five"] else none)
    "temp: fiveC" "five" [some "five"]
    (by intro kp hkp; exact absurd hkp (List.not_mem_nil kp))
    (by rfl) (by rfl) (by rfl)).1

/-- C10: a pattern that matches a message while exposing no non-None
capture group makes the extractor raise StopIteration instead of returning
(None, None) or a (kind, value) pair, for any parser. -/
theorem extract_measurement_missing_group_raises (pyFloat : String → Option Rat) :
    extract_measurement pyFloat [("temperature", no_group_pattern)] "Sunny today" =
      Except.error PyErr.stopIteration := by
  rfl

/-- C3: on a processed DataFrame the aggregator's output value at a
(station, kind) pair is the arithmetic mean of exactly the observation
values sharing the pair, and a pair with no observations is absent from
the output rather than present with value zero. -/
theorem calculate_means_is_arith_mean (rows : List ProcessedRow) (s k : String) :
    calculate_means ⟨some (WeatherDF.processed rows)⟩ =
      Except.ok (some (group_mean rows)) ∧
    (obs_values rows s k ≠ [] →
      group_mean rows s k =
        some ((obs_values rows s k).sum / ((obs_values rows s k).length : Rat))) ∧
    (obs_values rows s k = [] → group_mean rows s k = none) := by
  refine ⟨rfl, ?_, ?_⟩
  · intro hne
    simp only [group_mean, group_values_eq_obs_values]
    rw [if_neg hne]
  · intro hem
    simp only [group_mean, group_values_eq_obs_values]
    rw [if_pos hem]

/-- Witness for C3: station A with the two temperature observations 23.4
and 24.6 aggregates to 24. -/
theorem calculate_means_is_arith_mean_witness :
    group_mean [⟨"A", "m1", some "temperature", some (117 / 5)⟩,
      ⟨"A", "m2", some "temperature", some (123 / 5)⟩] "A" "temperature" = some 24 := by
  have hobs : obs_values [⟨"A", "m1", some "temperature", some (117 / 5)⟩,
      ⟨"A", "m2", some "temperature", some (123 / 5)⟩] "A" "temperature" =
      [117 / 5, 123 / 5] := by
    simp [obs_values, List.filter, List.reduceOption]
  have h := (calculate_means_is_arith_mean
    [⟨"A", "m1", some "temperature", some (117 / 5)⟩,
     ⟨"A", "m2", some "temperature", some (123 / 5)⟩] "A" "temperature").2.1
    (by rw [hobs]; simp)
  rw [h, hobs]
  norm_num [List.sum_cons, List.sum_nil]

/-- C5: calling calculate_means before extraction has populated the
DataFrame (weather_df still None, or loaded but unprocessed) never yields
the aggregated-output shape, and its result differs from the result on a
processed DataFrame in which no message matched. -/
theorem calculate_means_before_extraction_distinct (st : WeatherState)
    (prows : List ProcessedRow)
    (hpre : st.weather_df = none ∨ ∃ rows, st.weather_df = some (WeatherDF.raw rows))
    (hnomatch : ∀ r ∈ prows, r.measurement = none) :
    (∀ out, calculate_means st ≠ Except.ok (some out)) ∧
    calculate_means st ≠ calculate_means ⟨some (WeatherDF.processed prows)⟩ := by
  have hproc : calculate_means ⟨some (WeatherDF.processed prows)⟩ =
      Except.ok (some (group_mean prows)) := rfl
  rcases hpre with h0 | ⟨rows, h0⟩
  · have hval : calculate_means st = Except.ok none := by
      simp [calculate_means, h0]
    constructor
    · intro out hc
      rw [hval] at hc
      simp at hc
    · rw [hval, hproc]
      simp
  · have hval : calculate_means st = Except.error PyErr.keyError := by
      simp [calculate_means, h0]
    constructor
    · intro out hc
      rw [hval] at hc
      simp at hc
    · rw [hval, hproc]
      simp

/-- Witness for C5: the freshly constructed state distinguishes itself
from a processed state where no message matched. -/
theorem calculate_means_before_extraction_distinct_witness :
    calculate_means ⟨none⟩ ≠
      calculate_means ⟨some (WeatherDF.processed [⟨"A", "rainfall heavy", none, none⟩])⟩ :=
  (calculate_means_before_extraction_distinct ⟨none⟩ [⟨"A", "rainfall heavy", none, none⟩]
    (Or.inl rfl)
    (by
      intro r hr
      simp only [List.mem_singleton] at hr
      subst hr
      rfl)).2

/-- C7: the placeholder loop terminates on every finite column list with a
transient label that equals no existing column label, obtained by
deterministically extending the default placeholder with underscores while
it collides. -/
theorem rename_placeholder_fresh (cols : List String) :
    freshTempGo cols "__temp_name_for_swap__" ∉ cols ∧
    ∃ n : Nat, freshTempGo cols "__temp_name_for_swap__" =
      "__temp_name_for_swap__" ++ String.mk (List.replicate n '_') :=
  ⟨freshTempGo_not_mem cols "__temp_name_for_swap__",
   freshTempGo_extends cols "__temp_name_for_swap__"⟩

/-- C4: with the configured swapped pair present among the columns, the
repair exchanges the contents of the two labels, keeps every value with
its column position, and leaves every other column's label and values
unchanged. -/
theorem rename_columns_swaps_contents {α : Type} (column1 column2 : String)
    (df : List (String × α)) (h1 : column1 ∈ df.map Prod.fst) :
    rename_columns column1 column2 df =
      df.map (fun c =>
        (if c.1 = column1 then column2 else if c.1 = column2 then column1 else c.1, c.2)) := by
  have htemp : freshTempGo (df.map Prod.fst) "__temp_name_for_swap__" ∉ df.map Prod.fst :=
    freshTempGo_not_mem (df.map Prod.fst) "__temp_name_for_swap__"
  have hc1temp : column1 ≠ freshTempGo (df.map Prod.fst) "__temp_name_for_swap__" := by
    intro he
    rw [← he] at htemp
    exact htemp h1
  simp only [rename_columns, df_rename, List.map_map]
  refine List.map_congr_left ?_
  intro c hc
  have hcl : c.1 ∈ df.map Prod.fst := List.mem_map_of_mem Prod.fst hc
  have hcltemp : c.1 ≠ freshTempGo (df.map Prod.fst) "__temp_name_for_swap__" :=
    fun he => htemp (he ▸ hcl)
  simp only [Function.comp_apply, dict_get]
  by_cases e1 : c.1 = column1
  · by_cases e2 : c.1 = column2
    · rw [if_pos e2, if_pos e1, if_neg (fun he => hc1temp he)]
      rw [e1.symm.trans e2]
    · rw [if_neg e2, if_pos e1, if_pos rfl, if_pos e1]
  · by_cases e2 : c.1 = column2
    · rw [if_pos e2, if_neg (fun he => hc1temp he), if_neg e1, if_pos e2]
    · rw [if_neg e2, if_neg e1, if_neg hcltemp, if_neg e1, if_neg e2]

/-- Witness for C4: swapping the configured pair in a three-column frame
exchanges their contents and keeps the remaining column intact. -/
theorem rename_columns_swaps_contents_witness :
    rename_columns "Annual_yield" "Crop_type"
        ([("Field_ID", [1]), ("Annual_yield", [2]), ("Crop_type", [3])] :
          List (String × List Nat)) =
      [("Field_ID", [1]), ("Crop_type", [2]), ("Annual_yield", [3])] := by
  have h := rename_columns_swaps_contents "Annual_yield" "Crop_type"
    ([("Field_ID", [1]), ("Annual_yield", [2]), ("Crop_type", [3])] :
      List (String × List Nat))
    (by decide)
  rw [h]
  rfl

/-- C8: the corrections replace every elevation by its absolute value, so
every corrected elevation is nonnegative, send every crop value that is a
key of the duplicate-free alias table to its canonical form, leave crop
values outside the table unchanged, and keep the rest of each record. -/
theorem apply_corrections_spec (values_to_rename : List (String × String))
    (rows : List FieldRow) (hnd : (values_to_rename.map Prod.fst).Nodup) :
    (apply_corrections values_to_rename rows).length = rows.length ∧
    ∀ i (hi : i < rows.length) (ho : i < (apply_corrections values_to_rename rows).length),
      (apply_corrections values_to_rename rows)[i].elevation = |rows[i].elevation| ∧
      0 ≤ (apply_corrections values_to_rename rows)[i].elevation ∧
      (apply_corrections values_to_rename rows)[i].field_id = rows[i].field_id ∧
      (∀ canon, (rows[i].crop_type, canon) ∈ values_to_rename →
        (apply_corrections values_to_rename rows)[i].crop_type = canon) ∧
      ((∀ p ∈ values_to_rename, p.1 ≠ rows[i].crop_type) →
        (apply_corrections values_to_rename rows)[i].crop_type = rows[i].crop_type) := by
  constructor
  · simp [apply_corrections]
  · intro i hi ho
    have hget : (apply_corrections values_to_rename rows)[i] =
        { rows[i] with elevation := |rows[i].elevation|,
                       crop_type := dict_get values_to_rename rows[i].crop_type
                         rows[i].crop_type } := by
      simp [apply_corrections]
    rw [hget]
    refine ⟨rfl, abs_nonneg rows[i].elevation, rfl, ?_, ?_⟩
    · intro canon hc
      exact dict_get_mem_key values_to_rename rows[i].crop_type canon hnd hc
        rows[i].crop_type
    · intro hnone
      exact dict_get_not_mem_key values_to_rename rows[i].crop_type hnone
        rows[i].crop_type

/-- Witness for C8: a negative elevation is flipped to positive, an
aliased crop label is canonicalized, an unknown one is untouched. -/
theorem apply_corrections_spec_witness :
    (apply_corrections [("wheatt", "wheat")]
      ([⟨1, -10, "wheatt"⟩, ⟨2, 5, "maize"⟩] : List FieldRow)).length = 2 ∧
    ((apply_corrections [("wheatt", "wheat")]
      ([⟨1, -10, "wheatt"⟩, ⟨2, 5, "maize"⟩] : List FieldRow)).get
        ⟨0, by decide⟩).crop_type = "wheat" := by
  have h := apply_corrections_spec [("wheatt", "wheat")]
    ([⟨1, -10, "wheatt"⟩, ⟨2, 5, "maize"⟩] : List FieldRow) (by decide)
  obtain ⟨hlen, hspec⟩ := h
  refine ⟨hlen, ?_⟩
  have h0 := hspec 0 (by decide) (by rw [hlen]; decide)
  rw [List.get_eq_getElem]
  exact h0.2.2.2.1 "wheat" (by decide)

/-- C9: the station-mapping merge is a left join on Field_ID: every field
row appears in the result, and a field row without a matching mapping row
is paired with null station columns instead of being dropped. -/
theorem weather_station_mapping_left_join (df : List FieldRow)
    (weather_map_df : List StationRow) (f : FieldRow) (hf : f ∈ df) :
    (∃ j ∈ weather_station_mapping df weather_map_df, j.1 = f) ∧
    ((∀ m ∈ weather_map_df, m.field_id ≠ f.field_id) →
      (f, (none : Option String)) ∈ weather_station_mapping df weather_map_df) := by
  constructor
  · cases hfil : weather_map_df.filter (fun m => m.field_id == f.field_id) with
    | nil =>
      refine ⟨(f, none), ?_, rfl⟩
      apply List.mem_flatMap.mpr
      refine ⟨f, hf, ?_⟩
      simp only [hfil]
      exact List.mem_singleton.mpr rfl
    | cons m ms =>
      refine ⟨(f, some m.station), ?_, rfl⟩
      apply List.mem_flatMap.mpr
      refine ⟨f, hf, ?_⟩
      simp only [hfil]
      exact List.mem_map_of_mem _ (List.mem_cons_self m ms)
  · intro hnone
    have hfil : weather_map_df.filter (fun m => m.field_id == f.field_id) = [] := by
      rw [List.filter_eq_nil_iff]
      intro m hm
      simp only [beq_iff_eq]
      exact hnone m hm
    apply List.mem_flatMap.mpr
    refine ⟨f, hf, ?_⟩
    simp only [hfil]
    exact List.mem_singleton.mpr rfl

/-- Witness for C9: a field row with Field_ID 7 and no matching mapping
row survives the merge with a null station. -/
theorem weather_station_mapping_left_join_witness :
    ((⟨7, 100, "tea"⟩ : FieldRow), (none : Option String)) ∈
      weather_station_mapping ([⟨7, 100, "tea"⟩] : List FieldRow)
        ([⟨3, "Station_1"⟩] : List StationRow) :=
  (weather_station_mapping_left_join ([⟨7, 100, "tea"⟩] : List FieldRow)
    ([⟨3, "Station_1"⟩] : List StationRow) (⟨7, 100, "tea"⟩ : FieldRow)
    (by decide)).2 (by decide)
